import Mathlib

/-
Verification of the provisioning orchestrator of the
AWS-Pullomi-Organization-Configuration repository, as a shallow embedding
in Lean 4.  Go errors are modelled as strings (their message), a Go
`error` value as `Option GoErr` (`none` is the nil error), and remote-call
outcomes as injected functions from the invocation index to an outcome.
Time (sleeps, backoff delays) is erased: it never influences control flow
in the embedded code.
-/

/-- Go error values, modelled as their message string; a Go `error`
variable is an `Option GoErr`, with `none` standing for nil. -/
abbrev GoErr := String

/-! ## RetryWithBackoff (internal/organization/organization.go)

The Go loop is `for attempt := 1; attempt <= config.MaxAttempts; attempt++`,
calling the operation once per iteration, returning nil on the first
success, and after the loop returning
`fmt.Errorf("operation failed after %d attempts: %w", config.MaxAttempts, lastErr)`.
The operation is modelled as a function from the invocation index
(1-based, equal to the Go `attempt` counter) to the outcome of that invocation.
-/

/-- Outcome of the Go retry loop body: either some invocation returned nil
(the function returns nil immediately), or the loop exhausted its
iterations with a final `lastErr` (nil if the loop never ran). -/
inductive LoopOutcome where
  | success : LoopOutcome
  | exhausted : Option GoErr → LoopOutcome
deriving DecidableEq, Repr

/-- The value built by `fmt.Errorf("operation failed after %d attempts: %w", maxAttempts, lastErr)`:
it names the configured attempt count and wraps the last underlying error
(`none` when the Go `lastErr` variable is still nil). -/
structure RetryError where
  attempts : Int
  wrapped : Option GoErr
deriving DecidableEq, Repr

/-- The retry loop of `RetryWithBackoff`: `fuel` iterations remain,
`attempt` is the current 1-based attempt counter, `lastErr` the Go
`lastErr` variable.  Returns the number of invocations of the operation
actually performed together with the loop outcome.  Sleeping between
attempts is erased. -/
def retryLoop (op : Nat → Option GoErr) : Nat → Nat → Option GoErr → Nat × LoopOutcome
  | 0, _, lastErr => (0, LoopOutcome.exhausted lastErr)
  | fuel + 1, attempt, _ =>
    match op attempt with
    | none => (1, LoopOutcome.success)
    | some e =>
      let r := retryLoop op fuel (attempt + 1) (some e)
      (r.1 + 1, r.2)

/-- Embedding of `organization.RetryWithBackoff`.  `maxAttempts` is a Go
`int` (so it may be non-positive); the loop runs `maxAttempts.toNat`
iterations.  Returns the number of invocations of the operation and
`none` for a nil return, or the constructed error value. -/
def RetryWithBackoff (op : Nat → Option GoErr) (maxAttempts : Int) : Nat × Option RetryError :=
  match retryLoop op maxAttempts.toNat 1 none with
  | (n, LoopOutcome.success) => (n, none)
  | (n, LoopOutcome.exhausted lastErr) => (n, some ⟨maxAttempts, lastErr⟩)

/-! ## Account creation retry (internal/accounts/accounts.go)

The function `accounts.retryWithBackoff` is the same loop as
`organization.RetryWithBackoff` with `maxAttempts` and `baseDelay` passed
positionally.  In `AccountManager.CreateAccount` the rate-limiter wait
`am.limiter.Wait(ctx.Context())` is the FIRST statement inside the
`operation` closure handed to the retry loop, so a wait failure is
returned as the error of that invocation.
-/

/-- Embedding of `accounts.retryWithBackoff`: identical control flow to
`organization.RetryWithBackoff` (package-local copy in accounts.go). -/
def retryWithBackoff (op : Nat → Option GoErr) (maxAttempts : Int) : Nat × Option RetryError :=
  match retryLoop op maxAttempts.toNat 1 none with
  | (n, LoopOutcome.success) => (n, none)
  | (n, LoopOutcome.exhausted lastErr) => (n, some ⟨maxAttempts, lastErr⟩)

/-- The `operation` closure of `AccountManager.CreateAccount`, at its i-th
invocation: first `am.limiter.Wait` (outcome `waitResult i`; `some e`
models a context-cancellation error during the wait, which the closure
wraps as "rate limit exceeded: ..."), then, only if the wait succeeded,
the `awsOrg.NewAccount` call (outcome `createResult i`). -/
def accountOperation (waitResult createResult : Nat → Option GoErr) (i : Nat) : Option GoErr :=
  match waitResult i with
  | some e => some ("rate limit exceeded: " ++ e)
  | none => createResult i

/-- The constant `maxRetryAttempts` of accounts.go. -/
def maxRetryAttempts : Int := 3

/-- The retry call made by `AccountManager.CreateAccount`:
`retryWithBackoff(operation, maxRetryAttempts, baseRetryDelay)`. -/
def createAccountRetry (waitResult createResult : Nat → Option GoErr) : Nat × Option RetryError :=
  retryWithBackoff (accountOperation waitResult createResult) maxRetryAttempts

/-! ## SetupLandingZone stage fan-out (internal/controltower/landing_zone.go)

`SetupLandingZone` launches the governance stages as goroutines, each
sending its error (possibly nil) on the buffered channel `errChan`, waits
on the WaitGroup for ALL of them to finish, closes the channel, and only
then scans the channel, returning
`fmt.Errorf("landing zone setup failed: %w", err)` for the FIRST non-nil
error it sees.  The concurrent execution is embedded by threading an
explicit state through every stage body (each stage runs to completion
before the error check), and the channel contents as the list of per-stage
outcomes in arrival order.
-/

/-- One governance stage: reads and updates a state (its side effects)
and yields the error value it sends on `errChan` (`none` for nil). -/
abbrev Stage (σ : Type) := σ → σ × Option GoErr

/-- The goroutine fan-out plus `wg.Wait()`: every stage body runs to
completion; the returned list is the channel contents. -/
def launchStages {σ : Type} : List (Stage σ) → σ → σ × List (Option GoErr)
  | [], s => (s, [])
  | st :: rest, s =>
    let r := st s
    let r2 := launchStages rest r.1
    (r2.1, r.2 :: r2.2)

/-- Result of `SetupLandingZone`: nil, or the wrapped first channel error.
The `failed` payload is the underlying stage error wrapped by
`fmt.Errorf("landing zone setup failed: %w", err)`. -/
inductive LZResult where
  | ok : LZResult
  | failed : GoErr → LZResult
deriving DecidableEq, Repr

/-- The error-checking loop over the drained channel: returns the first
non-nil error, wrapped; nil if every entry is nil. -/
def checkErrChan : List (Option GoErr) → LZResult
  | [] => LZResult.ok
  | none :: rest => checkErrChan rest
  | some e :: _ => LZResult.failed e

/-- The list of underlying stage errors named by a `SetupLandingZone`
result (empty on success, a single error otherwise). -/
def reportedErrors : LZResult → List GoErr
  | LZResult.ok => []
  | LZResult.failed e => [e]

/-- Embedding of `SetupLandingZone` stage execution: run all stages to
completion (WaitGroup), then scan the channel for the first error. -/
def SetupLandingZone {σ : Type} (stages : List (Stage σ)) (s : σ) : σ × LZResult :=
  let r := launchStages stages s
  (r.1, checkErrChan r.2)

/-- A concrete stage for counterexamples: appends its index to the log
(its visible side effect, proving it ran to completion) and sends the
given outcome on the channel. -/
def mkStage (i : Nat) (outcome : Option GoErr) : Stage (List Nat) :=
  fun log => (log ++ [i], outcome)

/-- Five stages of which exactly two fail (stages 2 and 4). -/
def fiveStages : List (Stage (List Nat)) :=
  [mkStage 1 none, mkStage 2 (some "kms failed"), mkStage 3 none,
   mkStage 4 (some "guardrails failed"), mkStage 5 none]

/-- The first non-nil entry of the channel contents. -/
def firstErr : List (Option GoErr) → Option GoErr
  | [] => none
  | none :: rest => firstErr rest
  | some e :: _ => some e

/-! ## OU hierarchy builder (internal/organization/organization.go, createOUHierarchy)

The input type `config.OUConfig` has `Name string` and
`Children map[string]*OUConfig`.  A Go map has no specified iteration
order (the runtime deliberately randomizes `range`), so the embedding
represents one concrete iteration order of `Children` as a list; claims
that hold for every order are quantified over the list, and claim C9 is
about the dependence of the output on that order.  The cloud provider is
modelled as a deterministic id supply assigning "ou-1", "ou-2", ... in
creation order, threaded as a counter; `createOU` is assumed to succeed
(the claims about the registry concern successful builds).
-/

/-- One iteration order of a `config.OUConfig` value: the node name and
its children in the order `range` happens to yield them. -/
inductive OUConfig where
  | mk (name : String) (children : List OUConfig)

/-- Name of an OUConfig node. -/
def OUConfig.name : OUConfig → String
  | OUConfig.mk n _ => n

/-- Children of an OUConfig node, in iteration order. -/
def OUConfig.children : OUConfig → List OUConfig
  | OUConfig.mk _ cs => cs

/-- A created organizational unit: provider-assigned id, the name it was
created under, and the parent id passed to `createOU`. -/
structure OUNode where
  id : String
  name : String
  parentId : String
deriving DecidableEq, Repr

/-- The Go map `ous map[string]*organizations.OrganizationalUnit`,
modelled as an insertion-ordered association list. -/
abbrev Registry := List (String × OUNode)

/-- The key set of a registry, in insertion order. -/
def regKeys (m : Registry) : List String := m.map Prod.fst

/-- Go map assignment `ous[k] = v`: overwrites an existing entry for `k`,
otherwise adds a new one. -/
def mapInsert (m : Registry) (k : String) (v : OUNode) : Registry :=
  if k ∈ regKeys m then m.map (fun p => if p.1 = k then (k, v) else p)
  else m ++ [(k, v)]

/-- The merge loop `for k, v := range childOUs { ous[k] = v }`. -/
def mergeRegistry (acc child : Registry) : Registry :=
  child.foldl (fun m p => mapInsert m p.1 p.2) acc

/-- The deterministic id supply standing in for the cloud provider. -/
def freshId (ctr : Nat) : String := "ou-" ++ toString ctr

/-- Result of `createOUHierarchy`: the node created for the root of the
sub-spec, the merged registry (the Go `ous` map), the trace of every
`createOU` call made, in call order, and the next fresh counter. -/
structure BuildResult where
  ou : OUNode
  registry : Registry
  trace : List OUNode
  nextCtr : Nat

/-- Result of the children loop of `createOUHierarchy`. -/
structure ChildrenResult where
  registry : Registry
  trace : List OUNode
  nextCtr : Nat

mutual

/-- Embedding of `createOUHierarchy(ctx, parent, ouConfig, tags)`: create
the OU for `ouConfig.Name` under `parent`, seed the registry with it,
then for each child (in the given iteration order) recurse with the new
OU id as parent and merge the child registry into the accumulated one. -/
def createOUHierarchy : OUConfig → String → Nat → BuildResult
  | OUConfig.mk name children, parent, ctr =>
    let ou : OUNode := ⟨freshId ctr, name, parent⟩
    let r := buildChildren children ou.id (ctr + 1) [(name, ou)]
    ⟨ou, r.registry, ou :: r.trace, r.nextCtr⟩

/-- The `for _, child := range ouConfig.Children` loop of
`createOUHierarchy`, threading the accumulated registry and id counter. -/
def buildChildren : List OUConfig → String → Nat → Registry → ChildrenResult
  | [], _, ctr, acc => ⟨acc, [], ctr⟩
  | c :: rest, pid, ctr, acc =>
    let rc := createOUHierarchy c pid ctr
    let rr := buildChildren rest pid rc.nextCtr (mergeRegistry acc rc.registry)
    ⟨rr.registry, rc.trace ++ rr.trace, rr.nextCtr⟩

end

mutual

/-- Names of an OUSpec tree in pre-order (the node count of the tree is
the length of this list). -/
def specNames : OUConfig → List String
  | OUConfig.mk n cs => n :: joinNames cs

/-- Concatenated pre-order names of a forest. -/
def joinNames : List OUConfig → List String
  | [] => []
  | c :: rest => specNames c ++ joinNames rest

end

/-- Number of nodes of an OUSpec tree. -/
def specSize (cfg : OUConfig) : Nat := (specNames cfg).length

/-- The two iteration orders of the Children map of the Workloads node
configured in main.go (`Children: map with keys Development, Production`);
the Go runtime may yield either order on any given run. -/
def workloadsDevFirst : OUConfig :=
  OUConfig.mk "Workloads" [OUConfig.mk "Development" [], OUConfig.mk "Production" []]

/-- The same Go map value as `workloadsDevFirst`, iterated in the other
order. -/
def workloadsProdFirst : OUConfig :=
  OUConfig.mk "Workloads" [OUConfig.mk "Production" [], OUConfig.mk "Development" []]

/-- Checks, walking a creation trace in order while accumulating the ids
created so far, that the parentId of every node is either the supplied root
parent id or the id of a node created strictly earlier. -/
def okTrace (root : String) : List String → List OUNode → Bool
  | _, [] => true
  | created, n :: rest =>
    (decide (n.parentId = root ∨ n.parentId ∈ created)) &&
      okTrace root (n.id :: created) rest

/-- Ids of a trace pushed (in order) onto an accumulator. -/
def pushIds (xs : List OUNode) (created : List String) : List String :=
  xs.foldl (fun acc n => n.id :: acc) created

/-! ## StateManager (package state: Save, Load, CleanupOldStates)

The DynamoDB table is modelled as a list of items; `PutItem` appends (the
remote call outcome of each attempt is injected as `putResults`).  The
asynchronous S3 backup goroutine of `Save` is modelled by its outcome
`backupResult`: the code only ever logs that outcome.  The helper
`loadFromDynamoDB` is embedded exactly as written in the source: a stub
that ignores the table and returns a nil StateData pointer and a nil
error.  `cleanupDynamoDB` and `cleanupS3` are likewise stubs in the
source; the cleanup claim is about the error propagation around them, so
their outcomes are injected.
-/

/-- The constant `config.MaxRetries` used by the state manager. -/
def MaxRetries : Nat := 3

/-- The persisted snapshot structure `config.StateData`, with the fields
the claims are about (the JSON state map carries the topology). -/
structure StateData where
  version : String
  timestamp : Nat
  component : String
  state : List (String × String)
deriving DecidableEq, Repr

/-- A DynamoDB item as written by `saveToDynamoDB`: fixed partition key,
timestamp-derived sort key, marshalled state blob and version. -/
structure DynamoItem where
  pk : String
  sk : Nat
  stateBlob : StateData
  version : String
deriving DecidableEq, Repr

/-- The state table. -/
abbrev DynamoDB := List DynamoItem

/-- The typed error `config.StateError`. -/
structure StateError where
  operation : String
  message : String
  err : Option GoErr
deriving DecidableEq, Repr

/-- The item that `saveToDynamoDB` writes for a snapshot: partition key
`config.StateFilePrefix`, sort key the snapshot timestamp. -/
def mkItem (sd : StateData) : DynamoItem :=
  ⟨"state", sd.timestamp, sd, sd.version⟩

/-- The retry loop of `StateManager.Save`: attempt the `PutItem` call up
to the remaining fuel; a success appends the item and breaks; a failure
on the last attempt aborts with that error; otherwise sleep and retry.
Returns the updated table and the error that aborted the loop, if any. -/
def saveLoop (putResults : Nat → Option GoErr) (db : DynamoDB) (item : DynamoItem) :
    Nat → Nat → DynamoDB × Option GoErr
  | 0, _ => (db, none)
  | fuel + 1, attempt =>
    match putResults attempt with
    | none => (db ++ [item], none)
    | some e =>
      if fuel = 0 then (db, some e)
      else saveLoop putResults db item fuel (attempt + 1)

/-- Embedding of `StateManager.Save`: run the DynamoDB retry loop; on
exhaustion return the typed StateError; on success spawn the S3 backup
goroutine, whose failure is only logged, and return nil.  The result is
the updated table, the return value of Save, and whether a backup
failure was logged. -/
def Save (putResults : Nat → Option GoErr) (backupResult : Option GoErr)
    (db : DynamoDB) (sd : StateData) : DynamoDB × Option StateError × Bool :=
  match saveLoop putResults db (mkItem sd) MaxRetries 0 with
  | (db2, some e) =>
    (db2, some ⟨"Save", "max retries exceeded while saving to DynamoDB", some e⟩, false)
  | (db2, none) => (db2, none, backupResult.isSome)

/-- Embedding of the stub `StateManager.loadFromDynamoDB` exactly as in
the source: it ignores the table and returns a nil pointer and nil
error. -/
def loadFromDynamoDB (_db : DynamoDB) : Option StateData × Option GoErr :=
  (none, none)

/-- Possible outcomes of `StateManager.Load`: a snapshot, a typed error,
or the nil-pointer dereference that happens when the success log line
reads `stateData.Version` from a nil pointer. -/
inductive LoadOutcome where
  | ok : StateData → LoadOutcome
  | err : StateError → LoadOutcome
  | nilDeref : LoadOutcome
deriving DecidableEq, Repr

/-- The retry loop of `StateManager.Load`: call `loadFromDynamoDB`; a nil
error breaks with the returned pointer; an error on the last attempt
aborts with the typed StateError; otherwise sleep and retry. -/
def loadLoop (db : DynamoDB) : Nat → Nat → Option StateData ⊕ StateError
  | 0, _ => Sum.inl none
  | fuel + 1, attempt =>
    match loadFromDynamoDB db with
    | (sd, none) => Sum.inl sd
    | (_, some e) =>
      if fuel = 0 then
        Sum.inr ⟨"Load", "max retries exceeded while loading from DynamoDB", some e⟩
      else loadLoop db fuel (attempt + 1)

/-- Embedding of `StateManager.Load`: after the loop, the success path
logs `stateData.Version`, dereferencing the pointer returned by
`loadFromDynamoDB`; with the stub that pointer is nil, which is a
nil-pointer dereference. -/
def Load (db : DynamoDB) : LoadOutcome :=
  match loadLoop db MaxRetries 0 with
  | Sum.inr e => LoadOutcome.err e
  | Sum.inl none => LoadOutcome.nilDeref
  | Sum.inl (some sd) => LoadOutcome.ok sd

/-- Control-flow record of `StateManager.CleanupOldStates` given the
outcomes of the two store cleanup helpers: which cleanups were attempted
and the returned error. -/
structure CleanupRun where
  dynamoAttempted : Bool
  s3Attempted : Bool
  result : Option StateError
deriving DecidableEq, Repr

/-- Embedding of `StateManager.CleanupOldStates`: cleanup DynamoDB first
and return its wrapped error immediately on failure (never reaching the
S3 cleanup); only when it succeeds, cleanup S3 and wrap its error if
any. -/
def CleanupOldStates (dynErr s3Err : Option GoErr) : CleanupRun :=
  match dynErr with
  | some e => ⟨true, false, some ⟨"CleanupOldStates", "failed to cleanup DynamoDB", some e⟩⟩
  | none =>
    match s3Err with
    | some e => ⟨true, true, some ⟨"CleanupOldStates", "failed to cleanup S3", some e⟩⟩
    | none => ⟨true, true, none⟩

/-! ## Theorems -/

theorem retryLoop_succ_fail (op : Nat → Option GoErr) (fuel attempt : Nat)
    (lastErr : Option GoErr) (e : GoErr) (he : op attempt = some e) :
    retryLoop op (fuel + 1) attempt lastErr =
      ((retryLoop op fuel (attempt + 1) (some e)).1 + 1,
       (retryLoop op fuel (attempt + 1) (some e)).2) := by
  simp [retryLoop, he]

theorem retryLoop_all_fail (op : Nat → Option GoErr) :
    ∀ (fuel attempt : Nat) (lastErr : Option GoErr),
      (∀ i, attempt ≤ i → i < attempt + (fuel + 1) → (op i).isSome) →
      retryLoop op (fuel + 1) attempt lastErr =
        (fuel + 1, LoopOutcome.exhausted (op (attempt + fuel))) := by
  intro fuel
  induction fuel with
  | zero =>
    intro attempt lastErr h
    have hs : (op attempt).isSome := h attempt (Nat.le_refl _) (by omega)
    obtain ⟨e, he⟩ := Option.isSome_iff_exists.mp hs
    simp [retryLoop, he]
  | succ f ih =>
    intro attempt lastErr h
    have hs : (op attempt).isSome := h attempt (Nat.le_refl _) (by omega)
    obtain ⟨e, he⟩ := Option.isSome_iff_exists.mp hs
    have hrec := ih (attempt + 1) (some e) (by
      intro i h1 h2
      exact h i (by omega) (by omega))
    have harith : attempt + 1 + f = attempt + (f + 1) := by omega
    rw [harith] at hrec
    rw [retryLoop_succ_fail op (f + 1) attempt lastErr e he, hrec]

theorem retryLoop_first_success (op : Nat → Option GoErr) :
    ∀ (k fuel attempt : Nat) (lastErr : Option GoErr),
      k < fuel →
      (∀ i, attempt ≤ i → i < attempt + k → (op i).isSome) →
      op (attempt + k) = none →
      retryLoop op fuel attempt lastErr = (k + 1, LoopOutcome.success) := by
  intro k
  induction k with
  | zero =>
    intro fuel attempt lastErr hk _ hsucc
    obtain ⟨f, rfl⟩ := Nat.exists_eq_add_of_lt hk
    simp only [Nat.add_zero] at hsucc
    simp [retryLoop, hsucc]
  | succ k ih =>
    intro fuel attempt lastErr hk h hsucc
    obtain ⟨f, rfl⟩ := Nat.exists_eq_add_of_lt hk
    have hs : (op attempt).isSome := h attempt (Nat.le_refl _) (by omega)
    obtain ⟨e, he⟩ := Option.isSome_iff_exists.mp hs
    have hrec := ih (k + 1 + f) (attempt + 1) (some e) (by omega)
      (by intro i h1 h2; exact h i (by omega) (by omega))
      (by have : attempt + 1 + k = attempt + (k + 1) := by omega
          rw [this]; exact hsucc)
    simp [retryLoop, he, hrec]

theorem checkErrChan_firstErr (errs : List (Option GoErr)) :
    checkErrChan errs =
      match firstErr errs with
      | none => LZResult.ok
      | some e => LZResult.failed e := by
  induction errs with
  | nil => rfl
  | cons head rest ih =>
    cases head with
    | none => simpa [checkErrChan, firstErr] using ih
    | some e => rfl

theorem regKeys_append (m1 m2 : Registry) :
    regKeys (m1 ++ m2) = regKeys m1 ++ regKeys m2 := by
  simp [regKeys]

theorem mapInsert_not_mem (m : Registry) (k : String) (v : OUNode)
    (h : k ∉ regKeys m) : mapInsert m k v = m ++ [(k, v)] := by
  simp [mapInsert, h]

theorem mergeRegistry_keys (child : Registry) :
    ∀ acc : Registry, (regKeys child).Nodup →
      (∀ k, k ∈ regKeys child → k ∉ regKeys acc) →
      regKeys (mergeRegistry acc child) = regKeys acc ++ regKeys child := by
  induction child with
  | nil =>
    intro acc _ _
    simp [mergeRegistry, regKeys]
  | cons p rest ih =>
    intro acc hnd hdisj
    have hkacc : p.1 ∉ regKeys acc := hdisj p.1 (by simp [regKeys])
    have hins : mapInsert acc p.1 p.2 = acc ++ [(p.1, p.2)] :=
      mapInsert_not_mem _ _ _ hkacc
    have hstep : mergeRegistry acc (p :: rest) =
        mergeRegistry (mapInsert acc p.1 p.2) rest := rfl
    simp only [regKeys, List.map_cons] at hnd
    have hnd2 := List.nodup_cons.mp hnd
    have hdisj2 : ∀ k, k ∈ regKeys rest → k ∉ regKeys (acc ++ [(p.1, p.2)]) := by
      intro k hk
      rw [regKeys_append]
      intro hmem
      rcases List.mem_append.mp hmem with hmem | hmem
      · exact hdisj k (List.mem_cons_of_mem _ hk) hmem
      · have hkp : k = p.1 := by simpa [regKeys] using hmem
        exact hnd2.1 (hkp ▸ hk)
    rw [hstep, hins, ih (acc ++ [(p.1, p.2)]) hnd2.2 hdisj2, regKeys_append]
    simp [regKeys]

theorem pushIds_mem (xs : List OUNode) :
    ∀ (created : List String) (a : String), a ∈ created → a ∈ pushIds xs created := by
  induction xs with
  | nil =>
    intro c a h
    simpa [pushIds] using h
  | cons n rest ih =>
    intro c a h
    have := ih (n.id :: c) a (by simp [h])
    simpa [pushIds] using this

theorem okTrace_append (root : String) (xs : List OUNode) :
    ∀ (created : List String) (ys : List OUNode),
      okTrace root created (xs ++ ys) =
        (okTrace root created xs && okTrace root (pushIds xs created) ys) := by
  induction xs with
  | nil =>
    intro created ys
    simp [okTrace, pushIds]
  | cons n rest ih =>
    intro created ys
    simp [okTrace, pushIds, ih (n.id :: created) ys, Bool.and_assoc]

theorem saveLoop_success (putResults : Nat → Option GoErr)
    (db : DynamoDB) (item : DynamoItem) :
    ∀ (fuel attempt : Nat),
      (∃ k, k < fuel ∧ putResults (attempt + k) = none) →
      saveLoop putResults db item fuel attempt = (db ++ [item], none) := by
  intro fuel
  induction fuel with
  | zero =>
    intro attempt h
    obtain ⟨k, hk, _⟩ := h
    omega
  | succ f ih =>
    intro attempt h
    obtain ⟨k, hk, hnone⟩ := h
    by_cases h0 : putResults attempt = none
    · simp [saveLoop, h0]
    · obtain ⟨e, he⟩ := Option.ne_none_iff_exists.mp h0
      have hkpos : k ≠ 0 := by
        intro hk0
        rw [hk0, Nat.add_zero] at hnone
        exact h0 hnone
      have hfpos : f ≠ 0 := by omega
      have hrec := ih (attempt + 1) ⟨k - 1, by omega, by
        have : attempt + 1 + (k - 1) = attempt + k := by omega
        rw [this]; exact hnone⟩
      simp [saveLoop, ← he, hfpos, hrec]

/-- C1: for every maxAttempts = N with N at least 1, an operation that
fails its first N-1 invocations and succeeds on the Nth makes
RetryWithBackoff return nil after exactly N invocations; an operation
that fails on every invocation makes it return, after exactly N
invocations, an error naming N as the attempt count and wrapping the
last underlying error (the outcome of invocation N). -/
theorem retryWithBackoff_attempt_semantics (N : Nat) (hN : 1 ≤ N)
    (op : Nat → Option GoErr) :
    ((∀ i, 1 ≤ i → i < N → (op i).isSome) → op N = none →
      RetryWithBackoff op (N : Int) = (N, none)) ∧
    ((∀ i, 1 ≤ i → i ≤ N → (op i).isSome) →
      RetryWithBackoff op (N : Int) = (N, some ⟨(N : Int), op N⟩)) := by
  have htn : ((N : Int)).toNat = N := by omega
  constructor
  · intro hfail hsucc
    have hloop := retryLoop_first_success op (N - 1) N 1 none (by omega)
      (by intro i h1 h2; exact hfail i h1 (by omega))
      (by have : 1 + (N - 1) = N := by omega
          rw [this]; exact hsucc)
    have hcnt : N - 1 + 1 = N := by omega
    rw [hcnt] at hloop
    simp [RetryWithBackoff, htn, hloop]
  · intro hfail
    have hloop := retryLoop_all_fail op (N - 1) 1 none (by
      intro i h1 h2
      exact hfail i h1 (by omega))
    have hN1 : N - 1 + 1 = N := by omega
    have h1N : 1 + (N - 1) = N := by omega
    rw [hN1, h1N] at hloop
    simp [RetryWithBackoff, htn, hloop]

/-- Witness for C1 at N = 2: an operation failing once then succeeding is
invoked twice and reported as success; an always-failing operation is
invoked twice and reported as a failure after 2 attempts wrapping the
last error. -/
theorem retryWithBackoff_attempt_semantics_witness :
    RetryWithBackoff (fun i => if i = 2 then none else some "boom") 2 = (2, none) ∧
    RetryWithBackoff (fun _ => some "boom") 2 = (2, some ⟨2, some "boom"⟩) := by
  constructor
  · exact (retryWithBackoff_attempt_semantics 2 (by omega)
      (fun i => if i = 2 then none else some "boom")).1
      (by intro i h1 h2
          have hi : i = 1 := by omega
          subst hi
          simp)
      (by simp)
  · have h := (retryWithBackoff_attempt_semantics 2 (by omega)
      (fun _ => some "boom")).2 (by intro i _ _; simp)
    simpa using h

/-- C10: for every configured MaxAttempts strictly below 1, the retry
loop body never runs, so the operation is never invoked, and the
function still returns the constructed error naming the configured
attempt count and wrapping the nil (none) underlying error. -/
theorem retryWithBackoff_nonpositive (m : Int) (hm : m < 1)
    (op : Nat → Option GoErr) :
    RetryWithBackoff op m = (0, some ⟨m, none⟩) := by
  have h0 : m.toNat = 0 := by omega
  simp [RetryWithBackoff, h0, retryLoop]

/-- Witness for C10 at MaxAttempts = 0: zero invocations and an error
reporting 0 attempts wrapping a nil error. -/
theorem retryWithBackoff_nonpositive_witness :
    RetryWithBackoff (fun _ => some "never called") 0 = (0, some ⟨0, none⟩) :=
  retryWithBackoff_nonpositive 0 (by omega) (fun _ => some "never called")

/-- Counterexample to C8: with the context cancelled so that every
rate-limiter wait fails, the operation closure is still invoked 3 times
(not 1), i.e. the cancellation is counted as a failed attempt and does
trigger further retries, and the final error is the
failed-after-3-attempts error wrapping the rate-limit error. -/
theorem createAccountRetry_cancellation_counterexample :
    (createAccountRetry (fun _ => some "context canceled") (fun _ => none)).1 = 3 ∧
    (createAccountRetry (fun _ => some "context canceled") (fun _ => none)).1 ≠ 1 ∧
    (createAccountRetry (fun _ => some "context canceled") (fun _ => none)).2 =
      some ⟨3, some ("rate limit exceeded: " ++ "context canceled")⟩ := by
  refine ⟨rfl, by decide, rfl⟩

/-- C8 amended: in `AccountManager.CreateAccount` the rate-limiter wait
sits inside the retried operation closure, so a wait failure
(cancellation) is returned as the error of that attempt: it counts against
`maxAttempts` like any other failure and the loop keeps retrying, with
the wait re-attempted on every retry; when every wait fails, the closure
is invoked exactly 3 (= maxRetryAttempts) times and the result is the
failed-after-3-attempts error wrapping the rate-limit error of the last
wait. -/
theorem createAccountRetry_cancellation_counted
    (waitResult createResult : Nat → Option GoErr)
    (h : ∀ i, (waitResult i).isSome) :
    (createAccountRetry waitResult createResult).1 = 3 ∧
    ∃ e, waitResult 3 = some e ∧
      (createAccountRetry waitResult createResult).2 =
        some ⟨3, some ("rate limit exceeded: " ++ e)⟩ := by
  obtain ⟨e3, he3⟩ := Option.isSome_iff_exists.mp (h 3)
  have hop : ∀ i, 1 ≤ i → i < 1 + (2 + 1) →
      ((accountOperation waitResult createResult) i).isSome := by
    intro i _ _
    obtain ⟨e, he⟩ := Option.isSome_iff_exists.mp (h i)
    simp [accountOperation, he]
  have hloop := retryLoop_all_fail (accountOperation waitResult createResult) 2 1 none hop
  have hop3 : accountOperation waitResult createResult 3 =
      some ("rate limit exceeded: " ++ e3) := by
    simp [accountOperation, he3]
  norm_num at hloop
  rw [hop3] at hloop
  refine ⟨?_, e3, he3, ?_⟩ <;>
    simp [createAccountRetry, retryWithBackoff, maxRetryAttempts, hloop]

/-- Witness for C8 amended, with every wait cancelled: 3 invocations and
the failed-after-3 error wrapping the cancellation. -/
theorem createAccountRetry_cancellation_counted_witness :
    (createAccountRetry (fun _ => some "ctx") (fun _ => none)).1 = 3 ∧
    ∃ e, (fun _ => some "ctx") 3 = some e ∧
      (createAccountRetry (fun _ => some "ctx") (fun _ => none)).2 =
        some ⟨3, some ("rate limit exceeded: " ++ e)⟩ :=
  createAccountRetry_cancellation_counted (fun _ => some "ctx") (fun _ => none)
    (fun _ => rfl)

/-- Counterexample to C2: over five stages where exactly two fail, every
stage still runs to completion (the log contains all five indices), but
the overall error wraps only the error of the first failing stage; the
error of the second failing stage ("guardrails failed") is not named in the
result, refuting the aggregated-error part of the claim. -/
theorem setupLandingZone_first_error_only_counterexample :
    (SetupLandingZone fiveStages []).1 = [1, 2, 3, 4, 5] ∧
    (SetupLandingZone fiveStages []).2 = LZResult.failed "kms failed" ∧
    "guardrails failed" ∉ reportedErrors (SetupLandingZone fiveStages []).2 := by
  refine ⟨rfl, rfl, by decide⟩

/-- C2 amended: when stages fail, `SetupLandingZone` fails wrapping only
the error of the FIRST failing stage in channel-arrival order (not an
aggregate naming every failing stage), and every stage has still been
invoked to completion before the error check: the final state is the
fold of all stage bodies over the initial state, independent of any
failures. -/
theorem setupLandingZone_runs_all_reports_first {σ : Type}
    (stages : List (Stage σ)) (s : σ) :
    (SetupLandingZone stages s).1 =
      stages.foldl (fun st stage => (stage st).1) s ∧
    (SetupLandingZone stages s).2 =
      (match firstErr (launchStages stages s).2 with
       | none => LZResult.ok
       | some e => LZResult.failed e) := by
  constructor
  · show (launchStages stages s).1 = _
    induction stages generalizing s with
    | nil => rfl
    | cons st rest ih => simpa [launchStages, List.foldl] using ih ((st s).1)
  · exact checkErrChan_firstErr (launchStages stages s).2

mutual

theorem hierarchy_keys : ∀ (cfg : OUConfig) (parent : String) (ctr : Nat),
    (specNames cfg).Nodup →
    regKeys (createOUHierarchy cfg parent ctr).registry = specNames cfg
  | OUConfig.mk name children, parent, ctr, h => by
    have hchildren := children_keys children (freshId ctr) (ctr + 1)
      [(name, ⟨freshId ctr, name, parent⟩)]
      (by simpa [specNames, regKeys] using h)
    simp only [createOUHierarchy, specNames]
    rw [hchildren]
    simp [regKeys]

theorem children_keys : ∀ (cs : List OUConfig) (pid : String) (ctr : Nat)
    (acc : Registry),
    (regKeys acc ++ joinNames cs).Nodup →
    regKeys (buildChildren cs pid ctr acc).registry = regKeys acc ++ joinNames cs
  | [], _, _, acc, _ => by simp [buildChildren, joinNames]
  | c :: rest, pid, ctr, acc, h => by
    rw [joinNames] at h
    rw [← List.append_assoc] at h
    have hnc : (specNames c).Nodup :=
      ((List.nodup_append.mp (h.of_append_left)).2).1
    have hdisj : ∀ k, k ∈ specNames c → k ∉ regKeys acc := by
      intro k hk hmem
      exact (List.nodup_append.mp (h.of_append_left)).2.2 hmem hk
    have hkc : regKeys (createOUHierarchy c pid ctr).registry = specNames c :=
      hierarchy_keys c pid ctr hnc
    have hmerge : regKeys (mergeRegistry acc (createOUHierarchy c pid ctr).registry) =
        regKeys acc ++ specNames c := by
      rw [mergeRegistry_keys _ acc (hkc ▸ hnc) (by rw [hkc]; exact hdisj), hkc]
    have hrec := children_keys rest pid (createOUHierarchy c pid ctr).nextCtr
      (mergeRegistry acc (createOUHierarchy c pid ctr).registry)
      (by rw [hmerge]; exact h)
    simp only [buildChildren, joinNames]
    rw [hrec, hmerge, List.append_assoc]

end

/-- C3: for every valid OUSpec tree (OU names unique across the tree, the
validity condition recorded in the spec data-model invariants), the
registry returned by createOUHierarchy has exactly one entry per spec
node: its keys are precisely the pre-order names of the tree and its
size equals the node count, so no entry is dropped or overwritten by the
child-registry merges. -/
theorem createOUHierarchy_registry_complete (cfg : OUConfig) (parent : String)
    (ctr : Nat) (h : (specNames cfg).Nodup) :
    regKeys (createOUHierarchy cfg parent ctr).registry = specNames cfg ∧
    (createOUHierarchy cfg parent ctr).registry.length = specSize cfg := by
  have hk := hierarchy_keys cfg parent ctr h
  refine ⟨hk, ?_⟩
  have hlen := congrArg List.length hk
  simpa [regKeys, specSize] using hlen

/-- Witness for C3 on the Workloads tree of main.go: three spec nodes,
three registry entries, keys in pre-order. -/
theorem createOUHierarchy_registry_complete_witness :
    (specNames workloadsDevFirst).Nodup ∧
    regKeys (createOUHierarchy workloadsDevFirst "r-0" 1).registry =
      specNames workloadsDevFirst ∧
    (createOUHierarchy workloadsDevFirst "r-0" 1).registry.length =
      specSize workloadsDevFirst := by
  have hnd : (specNames workloadsDevFirst).Nodup := by
    simp [workloadsDevFirst, specNames, joinNames]
  exact ⟨hnd, createOUHierarchy_registry_complete workloadsDevFirst "r-0" 1 hnd⟩

mutual

theorem trace_parents_ok : ∀ (cfg : OUConfig) (parent : String) (ctr : Nat)
    (root : String) (created : List String),
    (parent = root ∨ parent ∈ created) →
    okTrace root created (createOUHierarchy cfg parent ctr).trace = true
  | OUConfig.mk name children, parent, ctr, root, created, hp => by
    have hrec := forest_parents_ok children (freshId ctr) (ctr + 1)
      [(name, ⟨freshId ctr, name, parent⟩)] root (freshId ctr :: created)
      (by simp)
    simp [createOUHierarchy, okTrace, hrec, decide_eq_true_eq]
    exact hp

theorem forest_parents_ok : ∀ (cs : List OUConfig) (pid : String) (ctr : Nat)
    (acc : Registry) (root : String) (created : List String),
    pid ∈ created →
    okTrace root created (buildChildren cs pid ctr acc).trace = true
  | [], _, _, _, _, _, _ => by simp [buildChildren, okTrace]
  | c :: rest, pid, ctr, acc, root, created, hp => by
    have h1 := trace_parents_ok c pid ctr root created (Or.inr hp)
    have h2 := forest_parents_ok rest pid (createOUHierarchy c pid ctr).nextCtr
      (mergeRegistry acc (createOUHierarchy c pid ctr).registry) root
      (pushIds (createOUHierarchy c pid ctr).trace created)
      (pushIds_mem _ _ _ hp)
    simp [buildChildren, okTrace_append, h1, h2]

end

/-- C4: for every OUSpec tree built by createOUHierarchy, walking the
creation trace in call order, the parentId of every created node is either
the supplied root parent id or the id of a node already created at that
point (parents are created before their children; no forward
references). -/
theorem createOUHierarchy_no_forward_references (cfg : OUConfig)
    (parent : String) (ctr : Nat) :
    okTrace parent [] (createOUHierarchy cfg parent ctr).trace = true :=
  trace_parents_ok cfg parent ctr parent [] (Or.inl rfl)

/-- C9 divergence witness: the two iteration orders of the very same
Children map of the Workloads node in main.go are permutations of one
another, yet createOUHierarchy produces different creation traces (and
different provider-assigned ids per name) for them; since the Go runtime
does not fix the range order of a map, the builder output is not
determined by the input map alone. -/
theorem createOUHierarchy_order_not_deterministic :
    workloadsDevFirst.children.Perm workloadsProdFirst.children ∧
    (createOUHierarchy workloadsDevFirst "r-0" 1).trace ≠
      (createOUHierarchy workloadsProdFirst "r-0" 1).trace := by
  constructor
  · simp only [workloadsDevFirst, workloadsProdFirst, OUConfig.children]
    exact List.Perm.swap _ _ _
  · simp [workloadsDevFirst, workloadsProdFirst, createOUHierarchy, buildChildren,
      freshId]

/-- C6: the return value of `StateManager.Save` never depends on the
outcome of the asynchronous S3 backup; whenever some primary DynamoDB
write attempt succeeds within MaxRetries, Save returns nil (and appends
the snapshot item), and a failing backup is merely logged. -/
theorem save_success_independent_of_backup
    (putResults : Nat → Option GoErr) (backup backup2 : Option GoErr)
    (db : DynamoDB) (sd : StateData)
    (h : ∃ k, k < MaxRetries ∧ putResults k = none) :
    (Save putResults backup db sd).2.1 = none ∧
    (Save putResults backup db sd).1 = db ++ [mkItem sd] ∧
    (Save putResults backup db sd).2.1 = (Save putResults backup2 db sd).2.1 ∧
    (∀ e, backup = some e → (Save putResults backup db sd).2.2 = true) := by
  obtain ⟨k, hk, hnone⟩ := h
  have hloop := saveLoop_success putResults db (mkItem sd) MaxRetries 0
    ⟨k, hk, by simpa using hnone⟩
  refine ⟨?_, ?_, ?_, ?_⟩ <;> simp [Save, hloop]
  intro e he
  simp [he]

/-- Witness for C6: primary write succeeds on the second attempt; a
failing backup leaves the result nil and identical to the result with a
succeeding backup, and the backup failure is logged. -/
theorem save_success_independent_of_backup_witness :
    (Save (fun k => if k = 1 then none else some "throttled") (some "s3 down")
        [] ⟨"1.0.0", 7, "aws-organization", []⟩).2.1 = none ∧
    (Save (fun k => if k = 1 then none else some "throttled") (some "s3 down")
        [] ⟨"1.0.0", 7, "aws-organization", []⟩).1 =
      [] ++ [mkItem ⟨"1.0.0", 7, "aws-organization", []⟩] ∧
    (Save (fun k => if k = 1 then none else some "throttled") (some "s3 down")
        [] ⟨"1.0.0", 7, "aws-organization", []⟩).2.1 =
      (Save (fun k => if k = 1 then none else some "throttled") none
        [] ⟨"1.0.0", 7, "aws-organization", []⟩).2.1 ∧
    (∀ e, (some "s3 down" : Option GoErr) = some e →
      (Save (fun k => if k = 1 then none else some "throttled") (some "s3 down")
        [] ⟨"1.0.0", 7, "aws-organization", []⟩).2.2 = true) :=
  save_success_independent_of_backup
    (fun k => if k = 1 then none else some "throttled") (some "s3 down") none
    [] ⟨"1.0.0", 7, "aws-organization", []⟩
    ⟨1, by decide, by simp⟩

/-- C5 divergence: `loadFromDynamoDB` is a stub returning a nil pointer
and nil error, so for every table state, in particular right after any
successful `Save`, `Load` breaks out of its retry loop with a nil
snapshot pointer and dereferences it in the success log line; it never
returns the saved snapshot, so the save-then-load round trip fails. -/
theorem stateStore_roundtrip_fails (putResults : Nat → Option GoErr)
    (backup : Option GoErr) (db : DynamoDB) (sd : StateData) :
    Load (Save putResults backup db sd).1 = LoadOutcome.nilDeref ∧
    Load (Save putResults backup db sd).1 ≠ LoadOutcome.ok sd := by
  constructor
  · rfl
  · intro h
    simp [Load, loadLoop, MaxRetries, loadFromDynamoDB] at h

/-- Counterexample to C7: when the DynamoDB cleanup fails, the function
returns at once and the S3 cleanup is never attempted, refuting the
claim that both store cleanups are always attempted regardless of the
outcome of the other. -/
theorem cleanup_aborts_on_primary_failure :
    (CleanupOldStates (some "dynamo down") none).s3Attempted = false ∧
    (CleanupOldStates (some "dynamo down") none).result =
      some ⟨"CleanupOldStates", "failed to cleanup DynamoDB", some "dynamo down"⟩ :=
  ⟨rfl, rfl⟩

/-- C7 amended: the DynamoDB cleanup is always attempted first; a failure
there is reported and aborts the call, so the S3 cleanup is attempted
exactly when the DynamoDB cleanup succeeds; an S3 failure is reported
after the DynamoDB cleanup already completed; the call returns nil only
when both succeed. -/
theorem cleanup_order_semantics (dynErr s3Err : Option GoErr) :
    (CleanupOldStates dynErr s3Err).dynamoAttempted = true ∧
    (CleanupOldStates dynErr s3Err).s3Attempted = dynErr.isNone ∧
    ((CleanupOldStates dynErr s3Err).result = none ↔
      dynErr = none ∧ s3Err = none) := by
  cases dynErr <;> cases s3Err <;> simp [CleanupOldStates]
